import Mathlib

/-!
Shallow embedding of `src/fetch_data.py` (the streaming HTML extractor, the
fetch orchestrator `scrape_website`, and the `__main__` entry point).

The Python parser (`SimpleHTMLParser`) receives tokenizer callbacks
`handle_starttag`, `handle_endtag`, `handle_data`; we model each callback as a
pure state transformer on an explicit `ParserState` and a document as the list
of callbacks the tokenizer fires for it.  Attributes arrive, as in Python's
`html.parser`, as a list of `(name, value)` pairs where a valueless attribute
has value `None` — hence `List (String × Option String)`.
-/

/-- A link entry, the dict `{'text': ..., 'href': ...}` built at
`fetch_data.py:50-53`. -/
structure Link where
  text : String
  href : String
deriving Repr, DecidableEq

/-- The mutable fields set up in `SimpleHTMLParser.__init__`
(`fetch_data.py:28-39`). -/
structure ParserState where
  title : String
  in_title : Bool
  headings : List String
  in_heading : Bool
  current_heading : String
  links : List Link
  paragraphs : List String
  in_paragraph : Bool
  current_paragraph : String
  meta_description : Option String
deriving Repr, DecidableEq

/-- Constructor `__init__` (`fetch_data.py:28-39`). -/
def initState : ParserState :=
  { title := "", in_title := false, headings := [], in_heading := false,
    current_heading := "", links := [], paragraphs := [], in_paragraph := false,
    current_paragraph := "", meta_description := none }

/-- Python truthiness of an optional string: `None` and `""` are falsy. -/
def truthyOpt : Option String → Bool
  | none => false
  | some s => s ≠ ""

/-- Python `str.strip()`: drop whitespace from both ends. -/
def pyStrip (s : String) : String :=
  ⟨List.reverse (List.dropWhile Char.isWhitespace
    (List.reverse (List.dropWhile Char.isWhitespace s.toList)))⟩

/-- Python `str.lower()`: lowercase every character. -/
def pyLower (s : String) : String :=
  ⟨s.toList.map Char.toLower⟩

/-- Heading-tag test `tag.startswith('h') and len(tag) == 2 and tag[1].isdigit()`
(`fetch_data.py:44` and `fetch_data.py:82`): the tag is exactly two
characters, the letter `h` followed by a digit. -/
def isHeadingTag (tag : String) : Bool :=
  match tag.toList with
  | [c, d] => c == 'h' && d.isDigit
  | _ => false

/-- Lookup `next((attr[1] for attr in attrs if attr[0] == 'href'), None)`
(`fetch_data.py:48`): value of the first `href` attribute; `none` both when no
`href` attribute exists and when it has no value. -/
def hrefOf (attrs : List (String × Option String)) : Option String :=
  ((attrs.find? (fun a => a.1 == "href")).map (fun a => a.2)).join

/-- One iteration of the attribute loop in the `meta` branch
(`fetch_data.py:63-73`), threading the `(is_description, content)` pair. -/
def metaFold (acc : Bool × Option String) (attr : String × Option String) :
    Bool × Option String :=
  let (is_description, content) := acc
  let (name, value) := attr
  if name == "name" && value.isSome then
    if pyLower (value.getD "") == "description" then (true, content)
    else (is_description, content)
  else if name == "content" then (is_description, value)
  else (is_description, content)

/-- The whole `meta` branch (`fetch_data.py:57-77`): the new value of
`self.meta_description` given the old one. -/
def metaUpdate (attrs : List (String × Option String))
    (old : Option String) : Option String :=
  let scanned := attrs.foldl metaFold (false, none)
  if scanned.1 && truthyOpt scanned.2 then scanned.2 else old

/-- Callback `SimpleHTMLParser.handle_starttag` (`fetch_data.py:41-77`). -/
def handle_starttag (s : ParserState) (tag : String)
    (attrs : List (String × Option String)) : ParserState :=
  if tag == "title" then
    { s with in_title := true }
  else if isHeadingTag tag then
    { s with in_heading := true, current_heading := "" }
  else if tag == "a" then
    let href := hrefOf attrs
    if truthyOpt href then
      { s with links := s.links ++ [{ text := "", href := href.getD "" }] }
    else s
  else if tag == "p" then
    { s with in_paragraph := true, current_paragraph := "" }
  else if tag == "meta" then
    { s with meta_description := metaUpdate attrs s.meta_description }
  else s

/-- Callback `SimpleHTMLParser.handle_endtag` (`fetch_data.py:79-89`). -/
def handle_endtag (s : ParserState) (tag : String) : ParserState :=
  if tag == "title" then
    { s with in_title := false }
  else if isHeadingTag tag then
    let s := { s with in_heading := false }
    if pyStrip s.current_heading ≠ "" then
      { s with headings := s.headings ++ [pyStrip s.current_heading] }
    else s
  else if tag == "p" then
    let s := { s with in_paragraph := false }
    if pyStrip s.current_paragraph ≠ "" then
      { s with paragraphs := s.paragraphs ++ [pyStrip s.current_paragraph] }
    else s
  else s

/-- The last-link text slot fill (`fetch_data.py:100-101`): if there is a last
link entry and its `text` is empty, set it to the stripped data. -/
def fillSlot (links : List Link) (data : String) : List Link :=
  match links.getLast? with
  | some l =>
      if l.text == "" then links.dropLast ++ [{ l with text := pyStrip data }]
      else links
  | none => links

/-- Callback `SimpleHTMLParser.handle_data` (`fetch_data.py:91-101`). -/
def handle_data (s : ParserState) (data : String) : ParserState :=
  let s :=
    if s.in_title then { s with title := s.title ++ data }
    else if s.in_heading then
      { s with current_heading := s.current_heading ++ data }
    else if s.in_paragraph then
      { s with current_paragraph := s.current_paragraph ++ data }
    else s
  { s with links := fillSlot s.links data }

/-- A tokenizer callback, as fired by `HTMLParser.feed`. -/
inductive Event where
  | start (tag : String) (attrs : List (String × Option String))
  | close (tag : String)
  | chars (data : String)
deriving Repr, DecidableEq

/-- Dispatch of one callback to its handler. -/
def step (s : ParserState) (e : Event) : ParserState :=
  match e with
  | .start tag attrs => handle_starttag s tag attrs
  | .close tag => handle_endtag s tag
  | .chars data => handle_data s data

/-- Run of `parser = SimpleHTMLParser(); parser.feed(html)` (`fetch_data.py:124-125`),
with the document given as its callback stream. -/
def feed (events : List Event) : ParserState :=
  events.foldl step initState

/-- A simple (non-nested) HTML element: `<tag attrs>text</tag>`. -/
structure Elem where
  tag : String
  attrs : List (String × Option String)
  text : String
deriving Repr, DecidableEq

/-- The callbacks the tokenizer fires for one simple element. -/
def elemEvents (e : Elem) : List Event :=
  [.start e.tag e.attrs, .chars e.text, .close e.tag]

/-- The callback stream of a document made of consecutive simple elements. -/
def docEvents (doc : List Elem) : List Event :=
  (doc.map elemEvents).flatten

/-- Processing of one whole simple element. -/
def stepElem (s : ParserState) (e : Elem) : ParserState :=
  handle_endtag (handle_data (handle_starttag s e.tag e.attrs) e.text) e.tag

/-- The `data` dict assembled on the success path (`fetch_data.py:128-136`),
with the timestamp abstracted as a parameter. -/
structure PageData where
  title : String
  url : String
  heading : Option String
  metaDescription : Option String
  links : List Link
  paragraphs : List String
  timestamp : String
deriving Repr, DecidableEq

/-- Lines 128-136: `parser.headings[0] if parser.headings else None`,
`parser.links[:20]`, `parser.paragraphs[:10]`. -/
def assembleData (url : String) (p : ParserState) (now : String) : PageData :=
  { title := p.title
    url := url
    heading := p.headings.head?
    metaDescription := p.meta_description
    links := p.links.take 20
    paragraphs := p.paragraphs.take 10
    timestamp := now }

/-- The `error` dict of the two `except` branches (`fetch_data.py:157-160`). -/
structure ErrorInfo where
  message : String
  type : String
deriving Repr, DecidableEq

/-- The top-level record `scrape_website` returns and persists: either the
success shape of lines 139-143 or the error shape of lines 154-161. -/
inductive ScrapeResult where
  | success (source_url : String) (scraped_at : String) (data : PageData)
  | failure (source_url : String) (scraped_at : String) (error : ErrorInfo)
deriving Repr, DecidableEq

/-- What the attempted fetch-and-parse does before any exception handling:
either the decoded body's callback stream, or the exception `scrape_website`
catches.  `URLError`/`HTTPError` are the network-layer classes named in the
first `except` (`fetch_data.py:152`); `unexpected` carries the type name of
any other exception (`fetch_data.py:168`). -/
inductive FetchOutcome where
  | ok (body : List Event)
  | urlError (msg : String)
  | httpError (msg : String)
  | unexpected (tyName : String) (msg : String)
deriving Repr, DecidableEq

/-- Orchestrator `scrape_website` (`fetch_data.py:103-183`): given the fetch outcome and the
timestamp, returns the record and the new content of `scraped_data.json`
(the record serialized there; the old content `oldFile` is overwritten
unconditionally). -/
def scrape_website (url : String) (outcome : FetchOutcome) (now : String)
    (_oldFile : Option ScrapeResult) : ScrapeResult × Option ScrapeResult :=
  match outcome with
  | .ok body =>
      let r := ScrapeResult.success url now (assembleData url (feed body) now)
      (r, some r)
  | .urlError msg =>
      let r := ScrapeResult.failure url now { message := msg, type := "URLError" }
      (r, some r)
  | .httpError msg =>
      let r := ScrapeResult.failure url now { message := msg, type := "HTTPError" }
      (r, some r)
  | .unexpected ty msg =>
      let r := ScrapeResult.failure url now { message := msg, type := ty }
      (r, some r)

/-- How the call `scrape_website(url_to_scrape)` in `__main__` ends: normal
return, or an exception escaping it. -/
inductive RunOutcome where
  | completed (r : ScrapeResult)
  | raised (msg : String)
deriving Repr, DecidableEq

/-- URL resolution `sys.argv[1] if len(sys.argv) > 1 else os.environ.get('SCRAPE_URL')`
(`fetch_data.py:187`); `argv` includes the program name at index 0. -/
def resolvedUrl (argv : List String) (env : Option String) : Option String :=
  if argv.length > 1 then argv[1]? else env

/-- The `__main__` block (`fetch_data.py:185-200`): exit status as a function
of the command line, the environment variable, and how the orchestrator call
behaves.  `if not url_to_scrape` is Python truthiness. -/
def mainExit (argv : List String) (env : Option String)
    (run : String → RunOutcome) : Nat :=
  match resolvedUrl argv env with
  | none => 1
  | some u =>
      if u = "" then 1
      else
        match run u with
        | .completed _ => 0
        | .raised _ => 1

/-! ### Document-level reference descriptions

Pointwise descriptions, in claim language, of what one pass over a document of
consecutive simple elements extracts; the theorems below relate them to `feed`.
-/

/-- Concatenated text of all `title` elements, in document order. -/
def titlesText : List Elem → String
  | [] => ""
  | e :: rest => (if e.tag == "title" then e.text else "") ++ titlesText rest

/-- Stripped texts of the heading elements, empty-after-strip ones excluded,
in document order. -/
def headingTexts (doc : List Elem) : List String :=
  ((doc.filter (fun e => isHeadingTag e.tag)).map (fun e => pyStrip e.text)).filter
    (fun t => t ≠ "")

/-- Stripped texts of the `p` elements, empty-after-strip ones excluded, in
document order. -/
def paraTexts (doc : List Elem) : List String :=
  ((doc.filter (fun e => e.tag == "p")).map (fun e => pyStrip e.text)).filter
    (fun t => t ≠ "")

/-- An element the `a` branch appends a link entry for: tag `a` and a truthy
(present, valued, non-empty) `href`. -/
def isAnchorWithHref (e : Elem) : Bool :=
  e.tag == "a" && truthyOpt (hrefOf e.attrs)

/-- The hrefs of the anchors that get a link entry, in document order. -/
def anchorHrefs (doc : List Elem) : List String :=
  (doc.filter isAnchorWithHref).map (fun e => (hrefOf e.attrs).getD "")

/-- The content the `meta` branch of this element records, when it records
one. -/
def metaArmed (e : Elem) : Option String :=
  if e.tag == "meta" then metaUpdate e.attrs none else none

/-- An element carrying an `href` attribute at all (valued or not). -/
def hasHrefAttr (e : Elem) : Bool :=
  (e.attrs.find? (fun a => a.1 == "href")).isSome

/-- Last-match-wins scan of the recorded meta contents over a document. -/
def lastMetaAcc (acc : Option String) (doc : List Elem) : Option String :=
  doc.foldl (fun a e => match metaArmed e with | some c => some c | none => a) acc

/-! ### Basic lemmas -/

lemma fillSlot_map_href (l : List Link) (d : String) :
    (fillSlot l d).map Link.href = l.map Link.href := by
  unfold fillSlot
  cases h : l.getLast? with
  | none => rfl
  | some x =>
    by_cases hx : x.text = ""
    · have hne : l ≠ [] := by
        intro hl
        rw [hl] at h
        simp at h
      have hx2 : l.getLast hne = x := by
        have h2 := List.getLast?_eq_getLast l hne
        rw [h] at h2
        exact (Option.some_inj.mp h2).symm
      simp only [hx, beq_self_eq_true, if_true]
      conv_rhs => rw [← List.dropLast_append_getLast hne]
      simp [hx2]
    · simp [hx]

lemma fillSlot_concat_empty (l : List Link) (h d : String) :
    fillSlot (l ++ [{ text := "", href := h }]) d
      = l ++ [{ text := pyStrip d, href := h }] := by
  unfold fillSlot
  simp [List.getLast?_concat, List.dropLast_concat]

lemma handle_data_links (s : ParserState) (d : String) :
    (handle_data s d).links = fillSlot s.links d := by
  unfold handle_data
  split_ifs <;> rfl

lemma metaUpdate_eq (attrs : List (String × Option String)) (old : Option String) :
    metaUpdate attrs old
      = match metaUpdate attrs none with
        | some c => some c
        | none => old := by
  unfold metaUpdate
  by_cases h : ((attrs.foldl metaFold (false, none)).1
      && truthyOpt (attrs.foldl metaFold (false, none)).2) = true
  · simp only [h, if_true]
    cases hc : (attrs.foldl metaFold (false, none)).2 with
    | none => rw [hc] at h; simp [truthyOpt] at h
    | some c => rfl
  · simp only [eq_false_of_ne_true h, if_false]
    rfl

lemma isHeadingTag_ne (t : String) (h : isHeadingTag t = true) :
    t ≠ "title" ∧ t ≠ "a" ∧ t ≠ "p" ∧ t ≠ "meta" := by
  refine ⟨?_, ?_, ?_, ?_⟩ <;> rintro rfl <;> exact absurd h (by decide)

set_option maxRecDepth 4000

lemma stepElem_spec (s : ParserState) (e : Elem)
    (h1 : s.in_title = false) (h2 : s.in_heading = false)
    (h3 : s.in_paragraph = false) :
    (stepElem s e).in_title = false ∧ (stepElem s e).in_heading = false
      ∧ (stepElem s e).in_paragraph = false
      ∧ (stepElem s e).title = s.title ++ (if e.tag == "title" then e.text else "")
      ∧ (stepElem s e).headings
          = s.headings ++ (if isHeadingTag e.tag then
              (if pyStrip e.text ≠ "" then [pyStrip e.text] else []) else [])
      ∧ (stepElem s e).paragraphs
          = s.paragraphs ++ (if e.tag == "p" then
              (if pyStrip e.text ≠ "" then [pyStrip e.text] else []) else [])
      ∧ (stepElem s e).links.map Link.href
          = s.links.map Link.href
              ++ (if isAnchorWithHref e then [(hrefOf e.attrs).getD ""] else [])
      ∧ (stepElem s e).meta_description
          = (match metaArmed e with
             | some c => some c
             | none => s.meta_description) := by
  obtain ⟨tag, attrs, text⟩ := e
  simp only [stepElem]
  by_cases ht : tag = "title"
  · subst ht
    simp [handle_starttag, handle_data, handle_endtag, h1, h2, h3,
      fillSlot_map_href, isAnchorWithHref, metaArmed,
      show isHeadingTag "title" = false from by decide]
  · by_cases hh : isHeadingTag tag = true
    · obtain ⟨_, hna, hnp, hnm⟩ := isHeadingTag_ne tag hh
      by_cases hs : pyStrip text ≠ ""
      · simp [handle_starttag, handle_data, handle_endtag, h1, h2, h3,
          fillSlot_map_href, isAnchorWithHref, metaArmed, ht, hh, hna, hnp, hnm, hs]
      · simp [handle_starttag, handle_data, handle_endtag, h1, h2, h3,
          fillSlot_map_href, isAnchorWithHref, metaArmed, ht, hh, hna, hnp, hnm, hs]
    · by_cases ha : tag = "a"
      · subst ha
        by_cases htr : truthyOpt (hrefOf attrs) = true
        · simp [handle_starttag, handle_data, handle_endtag, h1, h2, h3, htr,
            fillSlot_concat_empty, isAnchorWithHref, metaArmed,
            show isHeadingTag "a" = false from by decide]
        · simp [handle_starttag, handle_data, handle_endtag, h1, h2, h3, htr,
            fillSlot_map_href, isAnchorWithHref, metaArmed,
            show isHeadingTag "a" = false from by decide]
      · by_cases hp : tag = "p"
        · subst hp
          by_cases hs : pyStrip text ≠ ""
          · simp [handle_starttag, handle_data, handle_endtag, h1, h2, h3, hs,
              fillSlot_map_href, isAnchorWithHref, metaArmed,
              show isHeadingTag "p" = false from by decide]
          · simp [handle_starttag, handle_data, handle_endtag, h1, h2, h3, hs,
              fillSlot_map_href, isAnchorWithHref, metaArmed,
              show isHeadingTag "p" = false from by decide]
        · by_cases hm : tag = "meta"
          · subst hm
            have hmeta := metaUpdate_eq attrs s.meta_description
            simp [handle_starttag, handle_data, handle_endtag, h1, h2, h3,
              fillSlot_map_href, isAnchorWithHref, metaArmed, hmeta,
              show isHeadingTag "meta" = false from by decide]
          · simp [handle_starttag, handle_data, handle_endtag, h1, h2, h3,
              fillSlot_map_href, isAnchorWithHref, metaArmed,
              ht, hh, ha, hp, hm]

lemma titlesText_cons (e : Elem) (doc : List Elem) :
    titlesText (e :: doc)
      = (if e.tag == "title" then e.text else "") ++ titlesText doc := rfl

lemma headingTexts_cons (e : Elem) (doc : List Elem) :
    headingTexts (e :: doc)
      = (if isHeadingTag e.tag then
          (if pyStrip e.text ≠ "" then [pyStrip e.text] else []) else [])
        ++ headingTexts doc := by
  unfold headingTexts
  by_cases hh : isHeadingTag e.tag
  · by_cases hs : pyStrip e.text ≠ "" <;> simp [List.filter_cons, hh, hs]
  · simp [List.filter_cons, hh]

lemma paraTexts_cons (e : Elem) (doc : List Elem) :
    paraTexts (e :: doc)
      = (if e.tag == "p" then
          (if pyStrip e.text ≠ "" then [pyStrip e.text] else []) else [])
        ++ paraTexts doc := by
  unfold paraTexts
  by_cases hp : e.tag == "p"
  · by_cases hs : pyStrip e.text ≠ "" <;> simp [List.filter_cons, hp, hs]
  · simp [List.filter_cons, hp]

lemma anchorHrefs_cons (e : Elem) (doc : List Elem) :
    anchorHrefs (e :: doc)
      = (if isAnchorWithHref e then [(hrefOf e.attrs).getD ""] else [])
        ++ anchorHrefs doc := by
  unfold anchorHrefs
  by_cases hA : isAnchorWithHref e <;> simp [List.filter_cons, hA]

lemma foldl_stepElem_spec (doc : List Elem) :
    ∀ s : ParserState, s.in_title = false → s.in_heading = false →
      s.in_paragraph = false →
      (doc.foldl stepElem s).in_title = false
      ∧ (doc.foldl stepElem s).in_heading = false
      ∧ (doc.foldl stepElem s).in_paragraph = false
      ∧ (doc.foldl stepElem s).title = s.title ++ titlesText doc
      ∧ (doc.foldl stepElem s).headings = s.headings ++ headingTexts doc
      ∧ (doc.foldl stepElem s).paragraphs = s.paragraphs ++ paraTexts doc
      ∧ (doc.foldl stepElem s).links.map Link.href
          = s.links.map Link.href ++ anchorHrefs doc
      ∧ (doc.foldl stepElem s).meta_description
          = lastMetaAcc s.meta_description doc := by
  induction doc with
  | nil =>
      intro s h1 h2 h3
      simp [titlesText, headingTexts, paraTexts, anchorHrefs, lastMetaAcc,
        h1, h2, h3]
  | cons e doc ih =>
      intro s h1 h2 h3
      obtain ⟨g1, g2, g3, gt, gh, gp, gl, gm⟩ := stepElem_spec s e h1 h2 h3
      obtain ⟨f1, f2, f3, ft, fh, fp, fl, fm⟩ := ih (stepElem s e) g1 g2 g3
      refine ⟨f1, f2, f3, ?_, ?_, ?_, ?_, ?_⟩
      · rw [List.foldl_cons, ft, gt, titlesText_cons, String.append_assoc]
      · rw [List.foldl_cons, fh, gh, headingTexts_cons, List.append_assoc]
      · rw [List.foldl_cons, fp, gp, paraTexts_cons, List.append_assoc]
      · rw [List.foldl_cons, fl, gl, anchorHrefs_cons, List.append_assoc]
      · rw [List.foldl_cons, fm, gm]
        rfl

lemma feed_docEvents (doc : List Elem) :
    feed (docEvents doc) = doc.foldl stepElem initState := by
  unfold feed docEvents
  rw [List.foldl_flatten, List.foldl_map]
  rfl

lemma feed_doc_spec (doc : List Elem) :
    (feed (docEvents doc)).title = titlesText doc
    ∧ (feed (docEvents doc)).headings = headingTexts doc
    ∧ (feed (docEvents doc)).paragraphs = paraTexts doc
    ∧ (feed (docEvents doc)).links.map Link.href = anchorHrefs doc
    ∧ (feed (docEvents doc)).meta_description = lastMetaAcc none doc := by
  obtain ⟨-, -, -, ht, hh, hp, hl, hm⟩ :=
    foldl_stepElem_spec doc initState rfl rfl rfl
  rw [feed_docEvents]
  rw [show initState.title = "" from rfl] at ht
  rw [show initState.headings = [] from rfl] at hh
  rw [show initState.paragraphs = [] from rfl] at hp
  rw [show initState.links = [] from rfl] at hl
  rw [show initState.meta_description = none from rfl] at hm
  simpa using ⟨ht, hh, hp, hl, hm⟩

lemma lastMetaAcc_eq_getLast? (doc : List Elem) :
    ∀ acc : Option String,
      lastMetaAcc acc doc
        = match (doc.filterMap metaArmed).getLast? with
          | some c => some c
          | none => acc := by
  induction doc using List.reverseRecOn with
  | nil => intro acc; rfl
  | append_singleton xs e ih =>
      intro acc
      unfold lastMetaAcc
      rw [List.foldl_append, List.filterMap_append]
      cases hme : metaArmed e with
      | none =>
          simp only [List.foldl_cons, List.foldl_nil, hme]
          rw [show List.filterMap metaArmed [e] = [] from by
            simp [List.filterMap_cons, hme]]
          rw [List.append_nil]
          exact ih acc
      | some c =>
          simp only [List.foldl_cons, List.foldl_nil, hme]
          rw [show List.filterMap metaArmed [e] = [c] from by
            simp [List.filterMap_cons, hme]]
          rw [List.getLast?_concat]

/-! ### Link-entry stability -/

lemma fillSlot_preserves (l : List Link) (d : String) (i : Nat) (link : Link)
    (hi : l[i]? = some link) (hne : link.text ≠ "") :
    (fillSlot l d)[i]? = some link := by
  unfold fillSlot
  cases h : l.getLast? with
  | none => exact hi
  | some x =>
    by_cases hx : x.text = ""
    · simp only [hx, beq_self_eq_true, if_true]
      have hlen : i < l.length := (List.getElem?_eq_some.mp hi).1
      have hlast : i ≠ l.length - 1 := by
        intro hEq
        rw [List.getLast?_eq_getElem?, ← hEq, hi] at h
        have : link = x := Option.some_inj.mp h
        rw [this, hx] at hne
        exact hne rfl
      have hi' : i < l.length - 1 := by omega
      rw [List.getElem?_append]
      have hdl : l.dropLast.length = l.length - 1 := List.length_dropLast l
      rw [hdl]
      simp only [hi', if_true]
      rw [List.dropLast_eq_take, List.getElem?_take]
      simp only [hi', if_true]
      exact hi
    · simp only [hx]
      simp only [beq_iff_eq, if_neg hx]
      exact hi

lemma handle_endtag_links (s : ParserState) (tag : String) :
    (handle_endtag s tag).links = s.links := by
  unfold handle_endtag
  dsimp only
  split_ifs <;> rfl

lemma step_preserves_filled (s : ParserState) (e : Event) (i : Nat) (link : Link)
    (hi : s.links[i]? = some link) (hne : link.text ≠ "") :
    (step s e).links[i]? = some link := by
  cases e with
  | start tag attrs =>
      change (handle_starttag s tag attrs).links[i]? = some link
      have hlen : i < s.links.length := (List.getElem?_eq_some.mp hi).1
      unfold handle_starttag
      dsimp only
      split_ifs <;>
        first
          | exact hi
          | (rw [List.getElem?_append]
             simp only [hlen, if_true]
             exact hi)
  | close tag =>
      change (handle_endtag s tag).links[i]? = some link
      rw [handle_endtag_links]
      exact hi
  | chars d =>
      change (handle_data s d).links[i]? = some link
      rw [handle_data_links]
      exact fillSlot_preserves s.links d i link hi hne

lemma foldl_step_preserves_filled (es : List Event) :
    ∀ (s : ParserState) (i : Nat) (link : Link),
      s.links[i]? = some link → link.text ≠ "" →
      ((es.foldl step s).links)[i]? = some link := by
  induction es with
  | nil => intro s i link hi _; exact hi
  | cons e es ih =>
      intro s i link hi hne
      rw [List.foldl_cons]
      exact ih (step s e) i link (step_preserves_filled s e i link hi hne) hne

/-! ### Claim theorems -/

/-- Claim C1, counterexample: in a document with two
`<meta name="description">` tags (contents `A` then `B`) the parser records
`B`, not the first match `A` — a later description meta tag does change the
recorded value. -/
theorem c1_counterexample_meta_last_wins :
    (feed [Event.start "meta" [("name", some "description"), ("content", some "A")],
           Event.start "meta" [("name", some "description"), ("content", some "B")]]).meta_description
      = some "B"
    ∧ (some ("B" : String) ≠ some "A") := ⟨rfl, by decide⟩

/-- Claim C1 as amended: for every document, the extracted `metaDescription`
is the `content` attribute of the LAST `<meta name="description">` element
with a non-empty content (last match wins); when several description meta
tags are present, each later match overwrites the recorded value. -/
theorem c1_metaDescription_last_match (doc : List Elem) :
    (feed (docEvents doc)).meta_description = (doc.filterMap metaArmed).getLast? := by
  rw [(feed_doc_spec doc).2.2.2.2, lastMetaAcc_eq_getLast? doc none]
  cases (doc.filterMap metaArmed).getLast? <;> rfl

/-- Claim C2, counterexample: the title buffer is NOT reset on an opening
`title` tag, so for `<title>A</title><title>B</title>` extraction yields
`"AB"`, not the first element's text `"A"`. -/
theorem c2_counterexample_title_not_reset :
    (feed (docEvents [{ tag := "title", attrs := [], text := "A" },
                      { tag := "title", attrs := [], text := "B" }])).title = "AB"
    ∧ ("AB" : String) ≠ "A" := ⟨rfl, by decide⟩

/-- Claim C2 as amended: the title buffer is not reset on opening `title`
tags; the extracted title is the untrimmed concatenation of the text of ALL
`title` elements in document order; in particular, for a document with a
single `<title>X</title>` extraction yields `title == X` with no trimming
applied. -/
theorem c2_title_concatenates_all_titles (doc : List Elem) :
    (feed (docEvents doc)).title = titlesText doc
    ∧ ∀ x : String,
        (feed (docEvents [{ tag := "title", attrs := [], text := x }])).title = x := by
  refine ⟨(feed_doc_spec doc).1, ?_⟩
  intro x
  rw [(feed_doc_spec _).1]
  show (if ("title" == "title") = true then x else "") ++ titlesText [] = x
  simp [titlesText]

/-- Claim C3, counterexample: on an `a` opening tag whose `href` attribute is
present but has the empty-string value, no link entry is appended (the code
tests Python truthiness of the value, not presence of the attribute). -/
theorem c3_counterexample_empty_href_not_appended :
    (handle_starttag initState "a" [("href", some "")]).links = [] := rfl

/-- Claim C3 as amended: for every `a` opening tag whose `href` attribute is
present with a non-empty value, a new link entry `{text: "", href}` is
appended to the links sequence immediately, and a following character-data
callback fills its `text` field with the stripped data. -/
theorem c3_link_appended_for_truthy_href (s : ParserState)
    (attrs : List (String × Option String)) (d : String)
    (h : truthyOpt (hrefOf attrs) = true) :
    (handle_starttag s "a" attrs).links
        = s.links ++ [{ text := "", href := (hrefOf attrs).getD "" }]
    ∧ (handle_data (handle_starttag s "a" attrs) d).links
        = s.links ++ [{ text := pyStrip d, href := (hrefOf attrs).getD "" }] := by
  have hstart : (handle_starttag s "a" attrs).links
      = s.links ++ [{ text := "", href := (hrefOf attrs).getD "" }] := by
    unfold handle_starttag
    dsimp only
    simp [h, show isHeadingTag "a" = false from by decide]
  refine ⟨hstart, ?_⟩
  rw [handle_data_links, hstart, fillSlot_concat_empty]

/-- Witness for C3: the amended theorem applied at a concrete anchor tag. -/
theorem c3_witness :
    (handle_starttag initState "a" [("href", some "u")]).links
        = initState.links ++ [{ text := "", href := (hrefOf [("href", some "u")]).getD "" }]
    ∧ (handle_data (handle_starttag initState "a" [("href", some "u")]) " t ").links
        = initState.links ++ [{ text := pyStrip " t ", href := (hrefOf [("href", some "u")]).getD "" }] :=
  c3_link_appended_for_truthy_href initState [("href", some "u")] " t " (by decide)

/-- Claim C4: `firstHeading` (the `heading` field) is the head of the heading
sequence: the trimmed text of the first heading element with non-empty
trimmed text (`none` when there is none); a heading element is recognized
exactly when its tag name is two characters, the letter `h` followed by a
digit; a heading whose trimmed text is empty is not appended to the headings
sequence (captured by `headingTexts`). -/
theorem c4_firstHeading_spec (doc : List Elem) (url now : String) :
    (assembleData url (feed (docEvents doc)) now).heading = (headingTexts doc).head?
    ∧ (feed (docEvents doc)).headings = headingTexts doc
    ∧ (∀ t : String, isHeadingTag t = true ↔
        ∃ d : Char, d.isDigit = true ∧ t.toList = ['h', d]) := by
  refine ⟨?_, (feed_doc_spec doc).2.1, ?_⟩
  · show (feed (docEvents doc)).headings.head? = _
    rw [(feed_doc_spec doc).2.1]
  · intro t
    constructor
    · intro h
      unfold isHeadingTag at h
      rcases hl : t.toList with _ | ⟨c, _ | ⟨d, _ | _⟩⟩ <;> rw [hl] at h <;>
        simp only [Bool.and_eq_true, beq_iff_eq] at h
      · exact absurd h (by simp)
      · exact absurd h (by simp)
      · obtain ⟨hc, hd2⟩ := h
        subst hc
        exact ⟨d, hd2, rfl⟩
      · exact absurd h (by simp)
    · rintro ⟨d, hd, hl⟩
      unfold isHeadingTag
      rw [hl]
      simp [hd]

/-- Claim C5: a character-data callback arriving while the links sequence is
non-empty and its most-recently-appended entry has empty `text` assigns the
stripped data to that entry's `text` field, regardless of any parser flags
(structural position); and any entry whose `text` is non-empty is never
modified by any later sequence of callbacks. -/
theorem c5_link_text_fill_and_stability (s : ParserState) :
    (∀ (d : String) (last : Link),
        s.links.getLast? = some last → last.text = "" →
        (handle_data s d).links
          = s.links.dropLast ++ [{ last with text := pyStrip d }])
    ∧ (∀ (es : List Event) (i : Nat) (link : Link),
        s.links[i]? = some link → link.text ≠ "" →
        ((es.foldl step s).links)[i]? = some link) := by
  constructor
  · intro d last hlast hempty
    rw [handle_data_links]
    unfold fillSlot
    rw [hlast]
    simp [hempty]
  · intro es i link hi hne
    exact foldl_step_preserves_filled es s i link hi hne

/-- Claim C6, counterexample: a document with one `<p>` element whose text is
whitespace yields 0 paragraph entries, not `min(1,10) = 1` — an
empty-after-strip paragraph is excluded and so does not count toward N. -/
theorem c6_counterexample_empty_paragraph_excluded :
    ((assembleData "u"
        (feed (docEvents [({ tag := "p", attrs := [], text := " " } : Elem)]))
        "t").paragraphs).length
      ≠ min (([({ tag := "p", attrs := [], text := " " } : Elem)].filter
          (fun e => e.tag == "p")).length) 10 := by decide

/-- Claim C6 as amended: the extracted paragraphs sequence is the first 10 of
the stripped texts of the `<p>` elements that are non-empty after stripping,
in document order; its length is `min(N', 10)` where `N'` counts only the
`<p>` elements with non-empty stripped text. -/
theorem c6_paragraphs_spec (doc : List Elem) (url now : String) :
    (assembleData url (feed (docEvents doc)) now).paragraphs = (paraTexts doc).take 10
    ∧ ((assembleData url (feed (docEvents doc)) now).paragraphs).length
        = min (paraTexts doc).length 10 := by
  have h : (assembleData url (feed (docEvents doc)) now).paragraphs
      = (paraTexts doc).take 10 := by
    show (feed (docEvents doc)).paragraphs.take 10 = _
    rw [(feed_doc_spec doc).2.2.1]
  exact ⟨h, by rw [h, List.length_take, Nat.min_comm]⟩

/-- Claim C7: for a document whose anchors, when they carry an `href`
attribute, carry a non-empty value (the claim's `<a href="...">text</a>`
shape), the extracted links sequence has `min(M, 20)` entries where `M` is
the number of anchors with an `href` attribute, keeps document order
(earliest first, shown on the href fields), and an anchor lacking an `href`
attribute is not added. -/
theorem c7_links_cap (doc : List Elem) (url now : String)
    (h : ∀ e ∈ doc, e.tag = "a" → hasHrefAttr e = true →
        truthyOpt (hrefOf e.attrs) = true) :
    ((assembleData url (feed (docEvents doc)) now).links).map Link.href
        = (anchorHrefs doc).take 20
    ∧ ((assembleData url (feed (docEvents doc)) now).links).length
        = min ((doc.filter (fun e => e.tag == "a" && hasHrefAttr e)).length) 20 := by
  have hmap : ((assembleData url (feed (docEvents doc)) now).links).map Link.href
      = (anchorHrefs doc).take 20 := by
    show ((feed (docEvents doc)).links.take 20).map Link.href = _
    rw [List.map_take, (feed_doc_spec doc).2.2.2.1]
  have hfilter : doc.filter (fun e => e.tag == "a" && hasHrefAttr e)
      = doc.filter isAnchorWithHref := by
    apply List.filter_congr
    intro e he
    by_cases ha : e.tag = "a"
    · by_cases hh : hasHrefAttr e = true
      · have := h e he ha hh
        simp [isAnchorWithHref, ha, hh, this]
      · have hnone : hrefOf e.attrs = none := by
          unfold hasHrefAttr at hh
          unfold hrefOf
          cases hfind : e.attrs.find? (fun a => a.1 == "href") with
          | none => rfl
          | some q => rw [hfind] at hh; simp at hh
        simp [isAnchorWithHref, ha, hh, hnone, truthyOpt]
    · have hb : (e.tag == "a") = false := beq_eq_false_iff_ne.mpr ha
      simp [isAnchorWithHref, hb]
  refine ⟨hmap, ?_⟩
  have hlen : ((assembleData url (feed (docEvents doc)) now).links).length
      = (((assembleData url (feed (docEvents doc)) now).links).map Link.href).length :=
    (List.length_map _ _).symm
  rw [hlen, hmap, List.length_take, Nat.min_comm, hfilter]
  unfold anchorHrefs
  rw [List.length_map]

/-- Witness for C7: the theorem applied to a two-anchor document, one anchor
with `href`, one without. -/
theorem c7_witness :
    ((assembleData "u"
        (feed (docEvents [({ tag := "a", attrs := [("href", some "u1")], text := "x" } : Elem),
          ({ tag := "a", attrs := [], text := "y" } : Elem)])) "t").links).map Link.href
        = (anchorHrefs [({ tag := "a", attrs := [("href", some "u1")], text := "x" } : Elem),
          ({ tag := "a", attrs := [], text := "y" } : Elem)]).take 20
    ∧ ((assembleData "u"
        (feed (docEvents [({ tag := "a", attrs := [("href", some "u1")], text := "x" } : Elem),
          ({ tag := "a", attrs := [], text := "y" } : Elem)])) "t").links).length
        = min (([({ tag := "a", attrs := [("href", some "u1")], text := "x" } : Elem),
          ({ tag := "a", attrs := [], text := "y" } : Elem)].filter
            (fun e => e.tag == "a" && hasHrefAttr e)).length) 20 :=
  c7_links_cap
    [({ tag := "a", attrs := [("href", some "u1")], text := "x" } : Elem),
     ({ tag := "a", attrs := [], text := "y" } : Elem)] "u" "t" (by decide)

/-- Claim C8: when the fetch raises a network-layer error (`URLError` or
`HTTPError`), `scrape_website` does not propagate it: it returns a
Failure-shaped record whose error `type` is the exception's type name and
whose `message` is its description, and it overwrites the snapshot file
(whatever it held before) with exactly that record. -/
theorem c8_network_failure_record (url msg now : String) (old : Option ScrapeResult) :
    scrape_website url (FetchOutcome.urlError msg) now old
      = (ScrapeResult.failure url now { message := msg, type := "URLError" },
         some (ScrapeResult.failure url now { message := msg, type := "URLError" }))
    ∧ scrape_website url (FetchOutcome.httpError msg) now old
      = (ScrapeResult.failure url now { message := msg, type := "HTTPError" },
         some (ScrapeResult.failure url now { message := msg, type := "HTTPError" })) :=
  ⟨rfl, rfl⟩

/-- Claim C9: the process exits with status 0 whenever the orchestrator call
completes — including when the completed run returned a Failure record — and
exits with status 1 when no URL is resolvable from the positional argument or
the environment variable (resolved value absent or empty), or when an
exception escapes the orchestrator. -/
theorem c9_exit_codes (argv : List String) (env : Option String)
    (run : String → RunOutcome) :
    ((resolvedUrl argv env).getD "" = "" → mainExit argv env run = 1)
    ∧ (∀ u : String, resolvedUrl argv env = some u → u ≠ "" →
        (∀ r : ScrapeResult, run u = RunOutcome.completed r → mainExit argv env run = 0)
        ∧ (∀ m : String, run u = RunOutcome.raised m → mainExit argv env run = 1)) := by
  unfold mainExit
  cases hres : resolvedUrl argv env with
  | none =>
      refine ⟨fun _ => rfl, ?_⟩
      intro u hu
      exact absurd hu (by simp)
  | some u0 =>
      dsimp only
      constructor
      · intro hd
        simp only [Option.getD_some] at hd
        rw [if_pos hd]
      · intro u hu hne
        have : u0 = u := Option.some_inj.mp hu
        subst this
        rw [if_neg hne]
        constructor
        · intro r hr
          rw [hr]
        · intro m hm
          rw [hm]

lemma metaFold_content_stays_empty
    (attrs : List (String × Option String)) :
    ∀ acc : Bool × Option String,
      (∀ p ∈ attrs, p.1 = "content" → p.2 = none ∨ p.2 = some "") →
      (acc.2 = none ∨ acc.2 = some "") →
      ((attrs.foldl metaFold acc).2 = none ∨ (attrs.foldl metaFold acc).2 = some "") := by
  induction attrs with
  | nil =>
      intro acc _ hacc
      exact hacc
  | cons p rest ih =>
      intro acc hall hacc
      rw [List.foldl_cons]
      apply ih
      · intro q hq hq1
        exact hall q (List.mem_cons_of_mem p hq) hq1
      · obtain ⟨isd, cont⟩ := acc
        obtain ⟨name, value⟩ := p
        unfold metaFold
        dsimp only
        split_ifs with h1 h2 h3
        · exact hacc
        · exact hacc
        · exact hall (name, value) (List.mem_cons_self _ _)
            (by rwa [beq_iff_eq] at h3)
        · exact hacc

/-- Claim C10: a `meta` tag whose `content` attributes are all absent or
empty-valued never sets or overwrites `meta_description` (in particular one
with `name="description"`); appearing after a recorded description it does
not clear the earlier value. -/
theorem c10_meta_without_content_preserves (s : ParserState)
    (attrs : List (String × Option String))
    (h : ∀ p ∈ attrs, p.1 = "content" → p.2 = none ∨ p.2 = some "") :
    (handle_starttag s "meta" attrs).meta_description = s.meta_description := by
  have hsmall := metaFold_content_stays_empty attrs (false, none) h (Or.inl rfl)
  have hfalse : truthyOpt (attrs.foldl metaFold (false, none)).2 = false := by
    cases hsmall with
    | inl h0 => rw [h0]; rfl
    | inr h0 => rw [h0]; rfl
  unfold handle_starttag
  dsimp only
  rw [if_neg (by decide), if_neg (by simp [show isHeadingTag "meta" = false from by decide]),
    if_neg (by decide), if_neg (by decide), if_pos (by rfl)]
  show metaUpdate attrs s.meta_description = s.meta_description
  unfold metaUpdate
  dsimp only
  rw [hfalse, Bool.and_false]
  rfl

/-- Witness for C10: a meta description tag with empty `content` leaves a
previously recorded value unchanged. -/
theorem c10_witness :
    (handle_starttag
        { initState with meta_description := some "old" } "meta"
        [("name", some "description"), ("content", some "")]).meta_description
      = ({ initState with meta_description := some "old" } : ParserState).meta_description :=
  c10_meta_without_content_preserves
    { initState with meta_description := some "old" }
    [("name", some "description"), ("content", some "")] (by decide)
